import Mathlib

/-!
Verification of the deep-research repository core algorithms against its
specification.  The development shallowly embeds the three components that the
specification identifies as the core:

* the recursive research orchestrator (src/deep-research.ts, deepResearch),
* the adaptive prompt trimmer (ai/providers.ts, trimPrompt),
* the backoff retry wrapper (ai/retry.ts, withExponentialBackoff).

External collaborators (the search service, the text-generation service and the
tokenizer) are modelled as oracle functions packaged in an Env structure, and
JavaScript strings are modelled as Lean String (for uninterpreted payloads) or
List Char (where character-level operations of the source matter).
-/

/-- Helper for jsNewSet: deduplication keeping the first occurrence of each
element, carrying the set of elements already emitted. -/
def jsNewSetAux {α : Type} [DecidableEq α] (seen : List α) : List α → List α
  | [] => []
  | x :: xs => if x ∈ seen then jsNewSetAux seen xs else x :: jsNewSetAux (x :: seen) xs

/-- Model of the JavaScript expression spread of new Set(xs) into an array:
deduplication keeping the first occurrence of each element, in order. -/
def jsNewSet {α : Type} [DecidableEq α] (xs : List α) : List α :=
  jsNewSetAux [] xs

/-- Model of the JavaScript expression xs.slice(0, n) for an integer n
(negative n counts from the end of the array). -/
def jsSliceTo {α : Type} (xs : List α) (n : Int) : List α :=
  if 0 ≤ n then xs.take n.toNat else xs.take (xs.length - (-n).toNat)

/-- Model of the JavaScript expression Math.ceil(b / 2) on an integer b. -/
def mathCeilHalf (b : Int) : Int := -((-b).ediv 2)

theorem jsNewSetAux_mem {α : Type} [DecidableEq α] (l : List α) :
    ∀ (seen : List α) (a : α), a ∈ jsNewSetAux seen l ↔ a ∈ l ∧ a ∉ seen := by
  induction l with
  | nil => intro seen a; simp [jsNewSetAux]
  | cons x xs ih =>
    intro seen a
    by_cases hx : x ∈ seen
    · simp only [jsNewSetAux, if_pos hx, ih, List.mem_cons]
      constructor
      · rintro ⟨h1, h2⟩; exact ⟨Or.inr h1, h2⟩
      · rintro ⟨h1 | h1, h2⟩
        · exact absurd (h1 ▸ hx) h2
        · exact ⟨h1, h2⟩
    · simp only [jsNewSetAux, if_neg hx, List.mem_cons, ih]
      constructor
      · rintro (rfl | ⟨h1, h2⟩)
        · exact ⟨Or.inl rfl, hx⟩
        · exact ⟨Or.inr h1, fun hc => h2 (Or.inr hc)⟩
      · rintro ⟨h1 | h1, h2⟩
        · exact Or.inl h1
        · by_cases hax : a = x
          · exact Or.inl hax
          · exact Or.inr ⟨h1, by simp [List.mem_cons, hax, h2]⟩

theorem jsNewSet_mem {α : Type} [DecidableEq α] (l : List α) (a : α) :
    a ∈ jsNewSet l ↔ a ∈ l := by
  simp [jsNewSet, jsNewSetAux_mem]

theorem jsNewSetAux_nodup {α : Type} [DecidableEq α] (l : List α) :
    ∀ seen : List α, (jsNewSetAux seen l).Nodup := by
  induction l with
  | nil => intro seen; simp [jsNewSetAux]
  | cons x xs ih =>
    intro seen
    by_cases hx : x ∈ seen
    · simpa [jsNewSetAux, if_pos hx] using ih seen
    · have hstep : jsNewSetAux seen (x :: xs) = x :: jsNewSetAux (x :: seen) xs := by
        simp [jsNewSetAux, if_neg hx]
      rw [hstep]
      refine List.nodup_cons.mpr ⟨?_, ih (x :: seen)⟩
      intro hmem
      exact ((jsNewSetAux_mem xs (x :: seen) x).mp hmem).2 (List.mem_cons_self x seen)

theorem jsNewSet_nodup {α : Type} [DecidableEq α] (l : List α) :
    (jsNewSet l).Nodup :=
  jsNewSetAux_nodup l []

theorem mathCeilHalf_pos (b : Int) (hb : 1 ≤ b) : 1 ≤ mathCeilHalf b := by
  have h1 : (-b) ≤ -1 := by omega
  have h2 : (-b).ediv 2 ≤ (-1 : Int).ediv 2 := Int.ediv_le_ediv (by omega) h1
  have h3 : (-1 : Int).ediv 2 = -1 := by decide
  unfold mathCeilHalf
  omega

/-- Minimum floor of 140 characters for the trimmer (MinChunkSize in
ai/providers.ts). -/
def MinChunkSize : Nat := 140

/-- Modelled from the spec: the characters at which the text splitter may end a
chunk (paragraph, sentence and word boundaries, spec section 4.2).  The
RecursiveCharacterTextSplitter module (ai/text-splitter.ts) is imported by
ai/providers.ts but its source is not among the provided files. -/
def isBoundaryChar (c : Char) : Bool := c == '\n' || c == '.' || c == ' '

/-- Modelled from the spec: the length of the longest prefix of cs that ends
immediately after a boundary character, 0 when cs has no boundary character. -/
def lastBoundaryCut (cs : List Char) : Nat :=
  match cs.reverse.findIdx? isBoundaryChar with
  | some j => cs.length - j
  | none => 0

/-- Modelled from the spec: the first chunk produced by splitting text into
structurally coherent chunks of at most chunkSize characters, cutting
preferentially at boundaries and falling back to a raw character slice when no
boundary is in range (spec section 4.2).  trimPrompt consumes only the first
chunk of splitText, which is what is modelled; the chunk is a prefix of the
input. -/
def splitFirstChunk (chunkSize : Nat) (text : List Char) : List Char :=
  if text.length ≤ chunkSize then text
  else if lastBoundaryCut (text.take chunkSize) = 0 then text.take chunkSize
  else (text.take chunkSize).take (lastBoundaryCut (text.take chunkSize))

theorem lastBoundaryCut_le (cs : List Char) : lastBoundaryCut cs ≤ cs.length := by
  unfold lastBoundaryCut
  cases h : cs.reverse.findIdx? isBoundaryChar with
  | none => exact Nat.zero_le _
  | some j => exact Nat.sub_le _ _

theorem splitFirstChunk_length_le (chunkSize : Nat) (text : List Char) :
    (splitFirstChunk chunkSize text).length ≤ text.length := by
  unfold splitFirstChunk
  split
  · exact Nat.le_refl _
  · split
    · simp [List.length_take]
    · simp [List.length_take]

theorem splitFirstChunk_length_le_chunk (chunkSize : Nat) (text : List Char)
    (h : chunkSize < text.length) :
    (splitFirstChunk chunkSize text).length ≤ chunkSize := by
  unfold splitFirstChunk
  split
  · omega
  · split
    · simp [List.length_take]
    · simp [List.length_take]

theorem take_self_length {α : Type} (t : List α) (k : Nat) :
    t.take k = t.take ((t.take k).length) := by
  rw [List.length_take]
  exact (List.take_eq_take.mpr (by omega)).symm

theorem splitFirstChunk_take (chunkSize : Nat) (text : List Char) :
    splitFirstChunk chunkSize text = text.take (splitFirstChunk chunkSize text).length := by
  unfold splitFirstChunk
  split
  · rw [List.take_length]
  · split
    · exact take_self_length text chunkSize
    · rw [List.take_take]
      exact take_self_length text _

theorem splitFirstChunk_ne_nil (chunkSize : Nat) (text : List Char)
    (h1 : text ≠ []) (h2 : 1 ≤ chunkSize) :
    splitFirstChunk chunkSize text ≠ [] := by
  unfold splitFirstChunk
  split
  · exact h1
  · rename_i hlen
    have hp : 0 < text.length := List.length_pos.mpr h1
    have hpre : text.take chunkSize ≠ [] := by
      intro hc
      have hl := congrArg List.length hc
      rw [List.length_take, List.length_nil] at hl
      omega
    split
    · exact hpre
    · rename_i hcut
      intro hc
      have hl := congrArg List.length hc
      rw [List.length_take, List.length_take, List.length_nil] at hl
      have hcle := lastBoundaryCut_le (text.take chunkSize)
      rw [List.length_take] at hcle
      omega

/-- The local chunkSize computed by trimPrompt in ai/providers.ts:
prompt.length minus three characters per overflowing token. -/
def chunkSizeOf (enc : List Char → Nat) (prompt : List Char) (contextSize : Nat) : Int :=
  (prompt.length : Int) - ((enc prompt - contextSize : Nat) : Int) * 3

/-- trimPrompt from ai/providers.ts over an abstract tokenizer enc (the
js-tiktoken o200k encoder is an external library; enc cs is the token count of
cs).  The prompt is modelled as List Char and contextSize is the token
budget. -/
def trimPrompt (enc : List Char → Nat) (prompt : List Char) (contextSize : Nat) : List Char :=
  if prompt = [] then []
  else if enc prompt ≤ contextSize then prompt
  else if chunkSizeOf enc prompt contextSize < (MinChunkSize : Int) then prompt.take MinChunkSize
  else if (splitFirstChunk (chunkSizeOf enc prompt contextSize).toNat prompt).length = prompt.length then
    trimPrompt enc (prompt.take (chunkSizeOf enc prompt contextSize).toNat) contextSize
  else
    trimPrompt enc (splitFirstChunk (chunkSizeOf enc prompt contextSize).toNat prompt) contextSize
termination_by prompt.length
decreasing_by
  · have hcs : chunkSizeOf enc prompt contextSize =
      (prompt.length : Int) - ((enc prompt - contextSize : Nat) : Int) * 3 := rfl
    have hm : MinChunkSize = 140 := rfl
    simp only [List.length_take]
    omega
  · have h := splitFirstChunk_length_le (chunkSizeOf enc prompt contextSize).toNat prompt
    omega

theorem trimPrompt_nil (enc : List Char → Nat) (cs : Nat) : trimPrompt enc [] cs = [] := by
  unfold trimPrompt
  simp

theorem trimPrompt_of_le (enc : List Char → Nat) (prompt : List Char) (cs : Nat)
    (h : enc prompt ≤ cs) : trimPrompt enc prompt cs = prompt := by
  unfold trimPrompt
  by_cases hp : prompt = []
  · simp [hp]
  · simp [hp, h]

theorem trimPrompt_minfloor (enc : List Char → Nat) (prompt : List Char) (cs : Nat)
    (h1 : ¬ enc prompt ≤ cs) (h2 : chunkSizeOf enc prompt cs < (MinChunkSize : Int)) :
    trimPrompt enc prompt cs = prompt.take MinChunkSize := by
  unfold trimPrompt
  by_cases hp : prompt = []
  · simp [hp]
  · simp [hp, h1, h2]

theorem trimPrompt_step_slice (enc : List Char → Nat) (prompt : List Char) (cs : Nat)
    (h0 : prompt ≠ [])
    (h1 : ¬ enc prompt ≤ cs)
    (h2 : ¬ chunkSizeOf enc prompt cs < (MinChunkSize : Int))
    (h3 : (splitFirstChunk (chunkSizeOf enc prompt cs).toNat prompt).length = prompt.length) :
    trimPrompt enc prompt cs =
      trimPrompt enc (prompt.take (chunkSizeOf enc prompt cs).toNat) cs := by
  conv_lhs => rw [trimPrompt]
  simp [h0, h1, h2, h3]

theorem trimPrompt_step_chunk (enc : List Char → Nat) (prompt : List Char) (cs : Nat)
    (h0 : prompt ≠ [])
    (h1 : ¬ enc prompt ≤ cs)
    (h2 : ¬ chunkSizeOf enc prompt cs < (MinChunkSize : Int))
    (h3 : ¬ (splitFirstChunk (chunkSizeOf enc prompt cs).toNat prompt).length = prompt.length) :
    trimPrompt enc prompt cs =
      trimPrompt enc (splitFirstChunk (chunkSizeOf enc prompt cs).toNat prompt) cs := by
  conv_lhs => rw [trimPrompt]
  simp [h0, h1, h2, h3]

theorem prefix_take_trans (t s r : List Char)
    (hs : s = t.take s.length) (hr : r = s.take r.length) : r = t.take r.length := by
  have hlen : r.length = min r.length s.length := by
    conv_lhs => rw [hr]
    rw [List.length_take]
  calc r = s.take r.length := hr
    _ = (t.take s.length).take r.length := by rw [← hs]
    _ = t.take (min r.length s.length) := by rw [List.take_take]
    _ = t.take r.length := by rw [← hlen]

theorem trimPrompt_spec (enc : List Char → Nat) (prompt : List Char) (cs : Nat) :
    trimPrompt enc prompt cs = prompt.take (trimPrompt enc prompt cs).length ∧
    (enc (trimPrompt enc prompt cs) ≤ cs ∨ (trimPrompt enc prompt cs).length ≤ MinChunkSize) ∧
    (prompt ≠ [] → trimPrompt enc prompt cs ≠ []) := by
  refine trimPrompt.induct enc
    (fun prompt cs =>
      trimPrompt enc prompt cs = prompt.take (trimPrompt enc prompt cs).length ∧
      (enc (trimPrompt enc prompt cs) ≤ cs ∨ (trimPrompt enc prompt cs).length ≤ MinChunkSize) ∧
      (prompt ≠ [] → trimPrompt enc prompt cs ≠ [])) ?_ ?_ ?_ ?_ ?_ prompt cs
  · intro cs
    rw [trimPrompt_nil]
    simp
  · intro prompt cs h0 h1
    rw [trimPrompt_of_le enc prompt cs h1]
    refine ⟨(List.take_length prompt).symm, Or.inl h1, fun h => h0⟩
  · intro prompt cs h0 h1 h2
    rw [trimPrompt_minfloor enc prompt cs h1 h2]
    refine ⟨take_self_length prompt MinChunkSize, Or.inr (by simp [List.length_take]), ?_⟩
    intro _ hc
    have hl := congrArg List.length hc
    rw [List.length_take, List.length_nil] at hl
    have hp : 0 < prompt.length := List.length_pos.mpr h0
    have hm : (0 : Nat) < MinChunkSize := by decide
    omega
  · intro prompt cs h0 h1 h2 h3 ih
    rw [trimPrompt_step_slice enc prompt cs h0 h1 h2 h3]
    obtain ⟨ihp, ihb, ihn⟩ := ih
    have hcpos : 1 ≤ (chunkSizeOf enc prompt cs).toNat := by
      have hm : (MinChunkSize : Int) = 140 := rfl
      omega
    have hsub : prompt.take (chunkSizeOf enc prompt cs).toNat ≠ [] := by
      intro hc
      have hl := congrArg List.length hc
      rw [List.length_take, List.length_nil] at hl
      have hp : 0 < prompt.length := List.length_pos.mpr h0
      omega
    refine ⟨?_, ihb, fun _ => ihn hsub⟩
    exact prefix_take_trans prompt _ _ (take_self_length prompt _) ihp
  · intro prompt cs h0 h1 h2 h3 ih
    rw [trimPrompt_step_chunk enc prompt cs h0 h1 h2 h3]
    obtain ⟨ihp, ihb, ihn⟩ := ih
    have hcpos : 1 ≤ (chunkSizeOf enc prompt cs).toNat := by
      have hm : (MinChunkSize : Int) = 140 := rfl
      omega
    have hsub : splitFirstChunk (chunkSizeOf enc prompt cs).toNat prompt ≠ [] :=
      splitFirstChunk_ne_nil _ prompt h0 hcpos
    refine ⟨?_, ihb, fun _ => ihn hsub⟩
    exact prefix_take_trans prompt _ _ (splitFirstChunk_take _ prompt) ihp

theorem trimPrompt_idem_aux (enc : List Char → Nat) (prompt : List Char) (cs : Nat) :
    trimPrompt enc (trimPrompt enc prompt cs) cs = trimPrompt enc prompt cs := by
  obtain ⟨hpre, hb, hne⟩ := trimPrompt_spec enc prompt cs
  by_cases hrnil : trimPrompt enc prompt cs = []
  · rw [hrnil, trimPrompt_nil]
  · by_cases hrb : enc (trimPrompt enc prompt cs) ≤ cs
    · exact trimPrompt_of_le enc _ cs hrb
    · have hlen : (trimPrompt enc prompt cs).length ≤ MinChunkSize := by
        rcases hb with h | h
        · exact absurd h hrb
        · exact h
      have hcs : chunkSizeOf enc (trimPrompt enc prompt cs) cs < (MinChunkSize : Int) := by
        unfold chunkSizeOf
        have hov : 1 ≤ enc (trimPrompt enc prompt cs) - cs := by omega
        have hm : (MinChunkSize : Int) = 140 := rfl
        have hm2 : MinChunkSize = 140 := rfl
        omega
      rw [trimPrompt_minfloor enc _ cs hrb hcs]
      exact List.take_of_length_le hlen

/-- A generated search query together with its research goal (deep-research.ts,
generateSerpQueries response schema). -/
structure SerpQuery where
  query : String
  researchGoal : String
deriving DecidableEq, Repr

/-- One item of a Firecrawl search response: the url and the markdown content
may each be absent; deep-research.ts drops absent values with compact. -/
structure SearchItem where
  url : Option String
  markdown : Option String
deriving DecidableEq, Repr

/-- The object returned by the extraction call of processSerpResult. -/
structure FindingSet where
  learnings : List String
  followUpQuestions : List String
deriving DecidableEq, Repr

/-- Final result of a deep research operation (deep-research.ts,
ResearchResult). -/
structure ResearchResult where
  learnings : List String
  visitedUrls : List String
deriving DecidableEq, Repr

/-- Oracles for the external collaborators of deep-research.ts: enc models the
tokenizer used by trimPrompt, genOracle the text-generation call inside
generateSerpQueries, search the firecrawl.search call (with its fixed timeout
and result cap), and extract the text-generation call inside processSerpResult.
A thrown error is modelled as Except.error carrying the error message. -/
structure Env where
  enc : List Char → Nat
  genOracle : String → List String → Int → Except String (List SerpQuery)
  search : String → Except String (List SearchItem)
  extract : String → List String → Nat → Int → Except String FindingSet

/-- Concurrency control constant of deep-research.ts (the size of the pLimit
limiter created by each deepResearch invocation). -/
def ConcurrencyLimit : Nat := 1

/-- generateSerpQueries from deep-research.ts: ask the generation oracle for
queries based on the prompt and previous learnings, then slice the response to
at most numQueries entries. -/
def generateSerpQueries (env : Env) (query : String) (learnings : List String)
    (numQueries : Int) : Except String (List SerpQuery) :=
  match env.genOracle query learnings numQueries with
  | .error e => .error e
  | .ok res => .ok (jsSliceTo res numQueries)

/-- processSerpResult from deep-research.ts: extract the markdown contents of
the search result (dropping absent ones), trim each one to a 25000 token
budget with trimPrompt, and ask the extraction oracle for learnings and
follow-up questions. -/
def processSerpResult (env : Env) (query : String) (result : List SearchItem)
    (numLearnings : Nat) (numFollowUpQuestions : Int) : Except String FindingSet :=
  env.extract query
    ((result.filterMap SearchItem.markdown).map
      (fun content => (trimPrompt env.enc content.toList 25000).asString))
    numLearnings numFollowUpQuestions

/-- Whitespace characters removed by the JavaScript String.trim call. -/
def isJsWhitespace (c : Char) : Bool := c == ' ' || c == '\n' || c == '\t' || c == '\r'

/-- Model of the JavaScript expression s.trim(). -/
def jsTrim (s : String) : String :=
  (((s.toList.dropWhile isJsWhitespace).reverse.dropWhile isJsWhitespace).reverse).asString

/-- The next-level query string built by deepResearch (deep-research.ts lines
298-301): the template literal combining the research goal of the branch with
its follow-up questions, trimmed. -/
def nextQuery (serpQuery : SerpQuery) (newLearnings : FindingSet) : String :=
  jsTrim ("\n            Previous research goal: " ++ serpQuery.researchGoal
    ++ "\n            Follow-up research directions: "
    ++ String.join (newLearnings.followUpQuestions.map (fun q => "\n" ++ q))
    ++ "\n          ")

mutual

/-- One branch task of deepResearch (the function passed to the limiter in
deep-research.ts lines 260-334): search, process the result, then recurse with
halved breadth and decremented depth or terminate, with every failure caught
at the task boundary and resolved to the empty result. -/
def runTask (env : Env) (breadth depth : Int) (learnings visitedUrls : List String)
    (serpQuery : SerpQuery) : ResearchResult :=
  match env.search serpQuery.query with
  | .error _ => ⟨[], []⟩
  | .ok result =>
    match processSerpResult env serpQuery.query result 3 (mathCeilHalf breadth) with
    | .error _ => ⟨[], []⟩
    | .ok newLearnings =>
      if _h : 0 < depth - 1 then
        match deepResearch env (nextQuery serpQuery newLearnings) (mathCeilHalf breadth)
            (depth - 1) (learnings ++ newLearnings.learnings)
            (visitedUrls ++ result.filterMap SearchItem.url) with
        | .ok r => r
        | .error _ => ⟨[], []⟩
      else
        ⟨learnings ++ newLearnings.learnings, visitedUrls ++ result.filterMap SearchItem.url⟩
termination_by (depth.toNat, 0, 0)

/-- The sequence of branch tasks run by one deepResearch invocation, in the
order of the generated queries (Promise.all over the limited tasks). -/
def runTasks (env : Env) (breadth depth : Int) (learnings visitedUrls : List String) :
    List SerpQuery → List ResearchResult
  | [] => []
  | serpQuery :: rest =>
    runTask env breadth depth learnings visitedUrls serpQuery ::
      runTasks env breadth depth learnings visitedUrls rest
termination_by qs => (depth.toNat, 1, qs.length)

/-- deepResearch from deep-research.ts: generate up to breadth queries, run one
task per query, and merge the task results with exact-text deduplication. -/
def deepResearch (env : Env) (query : String) (breadth depth : Int)
    (learnings visitedUrls : List String) : Except String ResearchResult :=
  match generateSerpQueries env query learnings breadth with
  | .error e => .error e
  | .ok serpQueries =>
    .ok ⟨jsNewSet ((runTasks env breadth depth learnings visitedUrls serpQueries).flatMap
            ResearchResult.learnings),
         jsNewSet ((runTasks env breadth depth learnings visitedUrls serpQueries).flatMap
            ResearchResult.visitedUrls)⟩
termination_by (depth.toNat, 2, 0)

end

mutual

/-- Instrumented variant of runTask recording which concurrency limiter the
task acquired a slot of.  limiterId is the id of the limiter created by the
enclosing deepResearch invocation (the limit the task closure is passed to in
deep-research.ts line 260); nextId is the id the next created limiter will
receive.  Returns (task result, next fresh limiter id, records of
(limiter id, task query) for this task and all tasks below it). -/
def runTaskL (env : Env) (breadth depth : Int) (learnings visitedUrls : List String)
    (limiterId : Nat) (nextId : Nat) (serpQuery : SerpQuery) :
    ResearchResult × Nat × List (Nat × String) :=
  match env.search serpQuery.query with
  | .error _ => (⟨[], []⟩, nextId, [(limiterId, serpQuery.query)])
  | .ok result =>
    match processSerpResult env serpQuery.query result 3 (mathCeilHalf breadth) with
    | .error _ => (⟨[], []⟩, nextId, [(limiterId, serpQuery.query)])
    | .ok newLearnings =>
      if _h : 0 < depth - 1 then
        match deepResearchL env (nextQuery serpQuery newLearnings) (mathCeilHalf breadth)
            (depth - 1) (learnings ++ newLearnings.learnings)
            (visitedUrls ++ result.filterMap SearchItem.url) nextId with
        | (.ok r, n2, uses) => (r, n2, (limiterId, serpQuery.query) :: uses)
        | (.error _, n2, uses) => (⟨[], []⟩, n2, (limiterId, serpQuery.query) :: uses)
      else
        (⟨learnings ++ newLearnings.learnings,
            visitedUrls ++ result.filterMap SearchItem.url⟩,
          nextId, [(limiterId, serpQuery.query)])
termination_by (depth.toNat, 0, 0)

/-- Instrumented variant of runTasks, threading the fresh limiter id through
the sequence of tasks. -/
def runTasksL (env : Env) (breadth depth : Int) (learnings visitedUrls : List String)
    (limiterId : Nat) (nextId : Nat) :
    List SerpQuery → List ResearchResult × Nat × List (Nat × String)
  | [] => ([], nextId, [])
  | serpQuery :: rest =>
    match runTaskL env breadth depth learnings visitedUrls limiterId nextId serpQuery with
    | (r, n1, uses1) =>
      match runTasksL env breadth depth learnings visitedUrls limiterId n1 rest with
      | (rs, n2, uses2) => (r :: rs, n2, uses1 ++ uses2)
termination_by qs => (depth.toNat, 1, qs.length)

/-- Instrumented variant of deepResearch: each invocation evaluates
pLimit(ConcurrencyLimit) (deep-research.ts line 255) after generating its
queries and thereby creates a fresh limiter of size ConcurrencyLimit, whose id
is the current nextId; its own branch tasks are gated by that limiter. -/
def deepResearchL (env : Env) (query : String) (breadth depth : Int)
    (learnings visitedUrls : List String) (nextId : Nat) :
    Except String ResearchResult × Nat × List (Nat × String) :=
  match generateSerpQueries env query learnings breadth with
  | .error e => (.error e, nextId, [])
  | .ok serpQueries =>
    match runTasksL env breadth depth learnings visitedUrls nextId (nextId + 1) serpQueries with
    | (results, n2, uses) =>
      (.ok ⟨jsNewSet (results.flatMap ResearchResult.learnings),
            jsNewSet (results.flatMap ResearchResult.visitedUrls)⟩, n2, uses)
termination_by (depth.toNat, 2, 0)

end

/-- All recorded limiter uses name one common limiter: the formal reading of a
single semaphore gating every branch task of the whole recursion tree. -/
def usesSameLimiter (uses : List (Nat × String)) : Prop :=
  ∀ u ∈ uses, ∀ v ∈ uses, u.1 = v.1

/-- Every recorded limiter use names a limiter whose id lies in [lo, hi). -/
def usesWithin (uses : List (Nat × String)) (lo hi : Nat) : Prop :=
  ∀ u ∈ uses, lo ≤ u.1 ∧ u.1 < hi

/-- The limiter ids recorded by one deepResearchL invocation started at
fresh-id n stay at or above n and below the returned next fresh id. -/
def deepUsesSpec (env : Env) (breadth depth : Int) : Prop :=
  ∀ (query : String) (learnings visitedUrls : List String) (n : Nat),
    n ≤ (deepResearchL env query breadth depth learnings visitedUrls n).2.1 ∧
    usesWithin (deepResearchL env query breadth depth learnings visitedUrls n).2.2 n
      (deepResearchL env query breadth depth learnings visitedUrls n).2.1

theorem runTaskL_uses (env : Env) (breadth depth : Int) (L U : List String)
    (lid n : Nat) (sq : SerpQuery) (r : ResearchResult) (n2 : Nat)
    (uses : List (Nat × String))
    (hrec : 0 < depth - 1 → deepUsesSpec env (mathCeilHalf breadth) (depth - 1))
    (hout : runTaskL env breadth depth L U lid n sq = (r, n2, uses)) :
    n ≤ n2 ∧ (∀ u ∈ uses, u.1 = lid ∨ (n ≤ u.1 ∧ u.1 < n2)) ∧
      (lid < n → uses.filter (fun u => u.1 == lid) = [(lid, sq.query)]) := by
  unfold runTaskL at hout
  split at hout
  · cases hout
    refine ⟨Nat.le_refl _, ?_, ?_⟩
    · intro u hu
      rw [List.mem_singleton] at hu
      exact Or.inl (by rw [hu])
    · intro _
      simp
  · rename_i result heqSearch
    split at hout
    · cases hout
      refine ⟨Nat.le_refl _, ?_, ?_⟩
      · intro u hu
        rw [List.mem_singleton] at hu
        exact Or.inl (by rw [hu])
      · intro _
        simp
    · rename_i newLearnings heqProcess
      split at hout
      · rename_i hd
        split at hout
        · rename_i r1 n21 uses1 heq
          cases hout
          have hspec := (hrec hd) (nextQuery sq newLearnings)
            (L ++ newLearnings.learnings) (U ++ result.filterMap SearchItem.url) n
          rw [heq] at hspec
          obtain ⟨hn, hw⟩ := hspec
          dsimp only at hn hw
          refine ⟨hn, ?_, ?_⟩
          · intro u hu
            rcases List.mem_cons.mp hu with rfl | hu
            · exact Or.inl rfl
            · exact Or.inr (hw u hu)
          · intro hlid
            have hnil : uses1.filter (fun u => u.1 == lid) = [] := by
              refine List.filter_eq_nil_iff.mpr ?_
              intro u hu
              have := (hw u hu).1
              simp only [beq_iff_eq]
              omega
            simp [hnil]
        · rename_i e n21 uses1 heq
          cases hout
          have hspec := (hrec hd) (nextQuery sq newLearnings)
            (L ++ newLearnings.learnings) (U ++ result.filterMap SearchItem.url) n
          rw [heq] at hspec
          obtain ⟨hn, hw⟩ := hspec
          dsimp only at hn hw
          refine ⟨hn, ?_, ?_⟩
          · intro u hu
            rcases List.mem_cons.mp hu with rfl | hu
            · exact Or.inl rfl
            · exact Or.inr (hw u hu)
          · intro hlid
            have hnil : uses1.filter (fun u => u.1 == lid) = [] := by
              refine List.filter_eq_nil_iff.mpr ?_
              intro u hu
              have := (hw u hu).1
              simp only [beq_iff_eq]
              omega
            simp [hnil]
      · cases hout
        refine ⟨Nat.le_refl _, ?_, ?_⟩
        · intro u hu
          rw [List.mem_singleton] at hu
          exact Or.inl (by rw [hu])
        · intro _
          simp

theorem runTasksL_uses (env : Env) (breadth depth : Int) (L U : List String) (lid : Nat)
    (hrec : 0 < depth - 1 → deepUsesSpec env (mathCeilHalf breadth) (depth - 1)) :
    ∀ (sqs : List SerpQuery) (n : Nat) (rs : List ResearchResult) (n2 : Nat)
      (uses : List (Nat × String)),
      runTasksL env breadth depth L U lid n sqs = (rs, n2, uses) →
      n ≤ n2 ∧ (∀ u ∈ uses, u.1 = lid ∨ (n ≤ u.1 ∧ u.1 < n2)) ∧
        (lid < n → uses.filter (fun u => u.1 == lid) =
          sqs.map (fun sq => (lid, sq.query))) := by
  intro sqs
  induction sqs with
  | nil =>
    intro n rs n2 uses hout
    unfold runTasksL at hout
    cases hout
    refine ⟨Nat.le_refl _, ?_, ?_⟩
    · intro u hu
      cases hu
    · intro _
      simp
  | cons sq rest ih =>
    intro n rs n2 uses hout
    unfold runTasksL at hout
    split at hout
    rename_i r1 n1 uses1 heq1
    split at hout
    rename_i rs2 n2b uses2 heq2
    cases hout
    obtain ⟨ht1, ht2, ht3⟩ := runTaskL_uses env breadth depth L U lid n sq _ _ _ hrec heq1
    obtain ⟨hs1, hs2, hs3⟩ := ih _ _ _ _ heq2
    refine ⟨Nat.le_trans ht1 hs1, ?_, ?_⟩
    · intro u hu
      rcases List.mem_append.mp hu with hu | hu
      · rcases ht2 u hu with h | h
        · exact Or.inl h
        · exact Or.inr ⟨h.1, Nat.lt_of_lt_of_le h.2 hs1⟩
      · rcases hs2 u hu with h | h
        · exact Or.inl h
        · exact Or.inr ⟨Nat.le_trans ht1 h.1, h.2⟩
    · intro hlid
      rw [List.filter_append, ht3 hlid, hs3 (Nat.lt_of_lt_of_le hlid ht1)]
      simp

theorem deepResearchL_uses (k : Nat) :
    ∀ (env : Env) (breadth depth : Int), depth.toNat ≤ k →
      deepUsesSpec env breadth depth := by
  induction k using Nat.strong_induction_on with
  | _ k ih =>
    intro env breadth depth hk
    unfold deepUsesSpec
    intro query L U n
    have hrec : 0 < depth - 1 → deepUsesSpec env (mathCeilHalf breadth) (depth - 1) := by
      intro hd
      have h1 : (depth - 1).toNat < depth.toNat := by omega
      have h2 : (depth - 1).toNat < k := by omega
      exact ih (depth - 1).toNat h2 env (mathCeilHalf breadth) (depth - 1) (Nat.le_refl _)
    cases hg : generateSerpQueries env query L breadth with
    | error e =>
      have hd : deepResearchL env query breadth depth L U n = (.error e, n, []) := by
        unfold deepResearchL
        rw [hg]
      rw [hd]
      exact ⟨Nat.le_refl _, fun u hu => absurd hu (List.not_mem_nil u)⟩
    | ok sqs =>
      rcases htriple : runTasksL env breadth depth L U n (n + 1) sqs with ⟨rs, n2, uses⟩
      have hd : deepResearchL env query breadth depth L U n =
          (.ok ⟨jsNewSet (rs.flatMap ResearchResult.learnings),
                jsNewSet (rs.flatMap ResearchResult.visitedUrls)⟩, n2, uses) := by
        unfold deepResearchL
        rw [hg]
        dsimp only
        rw [htriple]
      rw [hd]
      obtain ⟨hn, hw, _⟩ := runTasksL_uses env breadth depth L U n hrec sqs (n + 1) rs n2 uses htriple
      dsimp only
      refine ⟨by omega, ?_⟩
      intro u hu
      rcases hw u hu with h | h
      · exact ⟨Nat.le_of_eq h.symm, by omega⟩
      · exact ⟨by omega, h.2⟩

/-- The retry options of ai/retry.ts.  A missing field is undefined in
JavaScript and is replaced by the defaults MaxRetries = 5 and
InitialRetryDelay = 1000 via the nullish coalescing operator. -/
structure RetryOptions where
  maxRetries : Option Int
  initialRetryDelay : Option Nat
deriving DecidableEq, Repr

/-- Outcome of a withExponentialBackoff call: a returned value, a thrown error
message, or the throw of the initial null lastError value (reached when the
loop body never executes). -/
inductive BackoffOutcome (α : Type) where
  | ok (v : α)
  | thrown (msg : String)
  | thrownNull
deriving DecidableEq, Repr

/-- The rate limit classification of ai/retry.ts line 27: the lowercased error
message includes the text rate limit. -/
def isRateLimit (msg : String) : Bool :=
  decide ("rate limit".toList <:+: msg.toList.map Char.toLower)

/-- Numeric value of a capture group of digits. -/
def digitsVal (ds : List Char) : Nat :=
  ds.foldl (fun a c => a * 10 + (c.toNat - '0'.toNat)) 0

/-- Math.ceil of parseFloat applied to intDigits.fracDigits seconds, in
milliseconds.  Computed with exact rational arithmetic; JavaScript computes it
in binary floating point, which can differ by one on some inputs, a difference
immaterial to the claims settled here. -/
def ceilMs (intDigits fracDigits : List Char) : Nat :=
  digitsVal intDigits * 1000 +
    (digitsVal fracDigits * 1000 + 10 ^ fracDigits.length - 1) / 10 ^ fracDigits.length

/-- Match the tail of the regex of ai/retry.ts line 39 at the position just
after the literal try again in: one or more digits, an optional dot with more
digits, then the letter s (case-insensitive). -/
def parseWaitAt (cs : List Char) : Option Nat :=
  if (cs.takeWhile Char.isDigit).isEmpty then none
  else
    match cs.drop (cs.takeWhile Char.isDigit).length with
    | '.' :: rest2 =>
      (match rest2.drop (rest2.takeWhile Char.isDigit).length with
       | c :: _ =>
         if c.toLower = 's' then
           some (ceilMs (cs.takeWhile Char.isDigit) (rest2.takeWhile Char.isDigit))
         else none
       | [] => none)
    | c :: _ =>
      if c.toLower = 's' then some (ceilMs (cs.takeWhile Char.isDigit) []) else none
    | [] => none

/-- The regex search of ai/retry.ts line 39: find the first position at which
the case-insensitive pattern matches and return the parsed wait time. -/
def findWaitTime : List Char → Option Nat
  | [] => none
  | c :: rest =>
    if ("try again in ".toList).isPrefixOf ((c :: rest).map Char.toLower) then
      match parseWaitAt ((c :: rest).drop ("try again in ".toList).length) with
      | some w => some w
      | none => findWaitTime rest
    else findWaitTime rest

/-- Extraction of the suggested wait time from an error message
(ai/retry.ts lines 38-42). -/
def parseWaitTime (msg : String) : Option Nat :=
  findWaitTime msg.toList

/-- The wait time of one retry iteration of ai/retry.ts lines 37-47: the parsed
explicit interval when present and nonzero (a zero parsed value is falsy in
JavaScript), otherwise exponential backoff. -/
def effectiveDelay (initialRetryDelay : Nat) (msg : String) (attempt : Nat) : Nat :=
  match parseWaitTime msg with
  | some w => if w = 0 then initialRetryDelay * 2 ^ attempt else w
  | none => initialRetryDelay * 2 ^ attempt

/-- The delay rule in the words of the spec, for comparison with the code: the
wait interval parsed from the error message when one is encoded, otherwise
initialDelayMs times 2 to the attempt index. -/
def claimedDelay (initialRetryDelay : Nat) (msg : String) (attempt : Nat) : Nat :=
  (parseWaitTime msg).getD (initialRetryDelay * 2 ^ attempt)

/-- The retry loop of withExponentialBackoff (ai/retry.ts lines 19-56).  The
operation is modelled as fn, mapping the attempt index to its outcome.  fuel
counts the remaining loop iterations: the for loop runs while
attempt < maxRetries, so from attempt = 0 it has maxRetries.toNat iterations in
total; the attempt = maxRetries - 1 test of line 31 is kept on the original
integer.  Returns the outcome together with the list of sleep durations
performed, in order. -/
def backoffGo {α : Type} (fn : Nat → Except String α) (maxRetries : Int)
    (initialRetryDelay : Nat) : Nat → Nat → Option String → BackoffOutcome α × List Nat
  | 0, _, lastError =>
    (match lastError with
     | some m => BackoffOutcome.thrown m
     | none => BackoffOutcome.thrownNull, [])
  | fuel + 1, attempt, _ =>
    match fn attempt with
    | .ok v => (.ok v, [])
    | .error msg =>
      if isRateLimit msg = false then (.thrown msg, [])
      else if (attempt : Int) = maxRetries - 1 then
        (.thrown ("Failed after " ++ toString maxRetries ++ " attempts with error: " ++ msg),
          [])
      else
        match backoffGo fn maxRetries initialRetryDelay fuel (attempt + 1) (some msg) with
        | (out, delays) => (out, effectiveDelay initialRetryDelay msg attempt :: delays)

/-- withExponentialBackoff from ai/retry.ts, returning the outcome and the
sleep durations performed. -/
def withExponentialBackoff {α : Type} (fn : Nat → Except String α)
    (options : RetryOptions) : BackoffOutcome α × List Nat :=
  backoffGo fn (options.maxRetries.getD 5) (options.initialRetryDelay.getD 1000)
    (options.maxRetries.getD 5).toNat 0 none

theorem backoffGo_ok {α : Type} (fn : Nat → Except String α) (m : Int) (init : Nat)
    (msgs : Nat → String) (v : α) :
    ∀ (fuel attempt : Nat) (le : Option String),
      (attempt : Int) + fuel = m →
      1 ≤ fuel →
      (∀ i, attempt ≤ i → i < attempt + (fuel - 1) →
        fn i = .error (msgs i) ∧ isRateLimit (msgs i) = true) →
      fn (attempt + (fuel - 1)) = .ok v →
      backoffGo fn m init fuel attempt le =
        (.ok v, (List.range' attempt (fuel - 1)).map
          (fun i => effectiveDelay init (msgs i) i)) := by
  intro fuel
  induction fuel with
  | zero =>
    intro attempt le hsum hfuel hfail hok
    omega
  | succ f ihf =>
    intro attempt le hsum hfuel hfail hok
    cases f with
    | zero =>
      unfold backoffGo
      rw [show attempt + (0 + 1 - 1) = attempt from by omega] at hok
      rw [hok]
      simp [List.range']
    | succ f2 =>
      have h1 := hfail attempt (Nat.le_refl _) (by omega)
      have hne : ¬ ((attempt : Int) = m - 1) := by omega
      have hrec := ihf (attempt + 1) (some (msgs attempt)) (by omega) (by omega)
        (fun i hi1 hi2 => hfail i (by omega) (by omega))
        (by rw [show attempt + 1 + (f2 + 1 - 1) = attempt + (f2 + 1 + 1 - 1) from by omega]
            exact hok)
      unfold backoffGo
      rw [h1.1]
      dsimp only
      rw [if_neg (by simp [h1.2]), if_neg hne, hrec]
      dsimp only
      simp [List.range'_succ]

theorem backoffGo_exhaust {α : Type} (fn : Nat → Except String α) (m : Int) (init : Nat)
    (msgs : Nat → String) :
    ∀ (fuel attempt : Nat) (le : Option String),
      (attempt : Int) + fuel = m →
      1 ≤ fuel →
      (∀ i, attempt ≤ i → i < attempt + fuel →
        fn i = .error (msgs i) ∧ isRateLimit (msgs i) = true) →
      backoffGo fn m init fuel attempt le =
        (.thrown ("Failed after " ++ toString m ++ " attempts with error: "
            ++ msgs (attempt + (fuel - 1))),
         (List.range' attempt (fuel - 1)).map (fun i => effectiveDelay init (msgs i) i)) := by
  intro fuel
  induction fuel with
  | zero =>
    intro attempt le hsum hfuel hfail
    omega
  | succ f ihf =>
    intro attempt le hsum hfuel hfail
    cases f with
    | zero =>
      have h1 := hfail attempt (Nat.le_refl _) (by omega)
      have heq : (attempt : Int) = m - 1 := by omega
      unfold backoffGo
      rw [h1.1]
      dsimp only
      rw [if_neg (by simp [h1.2]), if_pos heq]
      simp [List.range']
    | succ f2 =>
      have h1 := hfail attempt (Nat.le_refl _) (by omega)
      have hne : ¬ ((attempt : Int) = m - 1) := by omega
      have hrec := ihf (attempt + 1) (some (msgs attempt)) (by omega) (by omega)
        (fun i hi1 hi2 => hfail i (by omega) (by omega))
      unfold backoffGo
      rw [h1.1]
      dsimp only
      rw [if_neg (by simp [h1.2]), if_neg hne, hrec]
      dsimp only
      rw [show attempt + 1 + (f2 + 1 - 1) = attempt + (f2 + 1 + 1 - 1) from by omega]
      simp [List.range'_succ]

theorem runTasks_eq_map (env : Env) (b d : Int) (L U : List String) :
    ∀ sqs : List SerpQuery, runTasks env b d L U sqs = sqs.map (runTask env b d L U) := by
  intro sqs
  induction sqs with
  | nil =>
    unfold runTasks
    simp
  | cons sq rest ih =>
    unfold runTasks
    rw [ih]
    simp

theorem deepResearch_ok (env : Env) (q : String) (b d : Int) (L U : List String)
    (sqs : List SerpQuery) (hg : generateSerpQueries env q L b = .ok sqs) :
    deepResearch env q b d L U =
      .ok ⟨jsNewSet ((runTasks env b d L U sqs).flatMap ResearchResult.learnings),
           jsNewSet ((runTasks env b d L U sqs).flatMap ResearchResult.visitedUrls)⟩ := by
  unfold deepResearch
  rw [hg]

theorem deepResearch_error (env : Env) (q : String) (b d : Int) (L U : List String)
    (e : String) (hg : generateSerpQueries env q L b = .error e) :
    deepResearch env q b d L U = .error e := by
  unfold deepResearch
  rw [hg]

theorem runTask_search_error (env : Env) (b d : Int) (L U : List String)
    (sq : SerpQuery) (e : String) (h : env.search sq.query = .error e) :
    runTask env b d L U sq = ⟨[], []⟩ := by
  unfold runTask
  rw [h]

theorem runTask_process_error (env : Env) (b d : Int) (L U : List String)
    (sq : SerpQuery) (items : List SearchItem) (e : String)
    (h1 : env.search sq.query = .ok items)
    (h2 : processSerpResult env sq.query items 3 (mathCeilHalf b) = .error e) :
    runTask env b d L U sq = ⟨[], []⟩ := by
  unfold runTask
  rw [h1]
  dsimp only
  rw [h2]

theorem runTask_recurse (env : Env) (b d : Int) (L U : List String)
    (sq : SerpQuery) (items : List SearchItem) (fs : FindingSet)
    (h1 : env.search sq.query = .ok items)
    (h2 : processSerpResult env sq.query items 3 (mathCeilHalf b) = .ok fs)
    (hd : 0 < d - 1) :
    runTask env b d L U sq =
      (match deepResearch env (nextQuery sq fs) (mathCeilHalf b) (d - 1)
          (L ++ fs.learnings) (U ++ items.filterMap SearchItem.url) with
       | .ok r => r
       | .error _ => ⟨[], []⟩) := by
  unfold runTask
  rw [h1]
  dsimp only
  rw [h2]
  dsimp only
  rw [dif_pos hd]

theorem runTask_terminal (env : Env) (b d : Int) (L U : List String)
    (sq : SerpQuery) (items : List SearchItem) (fs : FindingSet)
    (h1 : env.search sq.query = .ok items)
    (h2 : processSerpResult env sq.query items 3 (mathCeilHalf b) = .ok fs)
    (hd : ¬ 0 < d - 1) :
    runTask env b d L U sq =
      ⟨L ++ fs.learnings, U ++ items.filterMap SearchItem.url⟩ := by
  unfold runTask
  rw [h1]
  dsimp only
  rw [h2]
  dsimp only
  rw [dif_neg hd]

theorem mem_deepResearch_learnings (env : Env) (q : String) (b d : Int)
    (L U : List String) (sqs : List SerpQuery) (sq : SerpQuery) (x : String)
    (r : ResearchResult)
    (hg : generateSerpQueries env q L b = .ok sqs) (hsq : sq ∈ sqs)
    (hr : deepResearch env q b d L U = .ok r)
    (hx : x ∈ (runTask env b d L U sq).learnings) : x ∈ r.learnings := by
  rw [deepResearch_ok env q b d L U sqs hg] at hr
  cases hr
  rw [jsNewSet_mem]
  rw [List.mem_flatMap]
  refine ⟨runTask env b d L U sq, ?_, hx⟩
  rw [runTasks_eq_map]
  exact List.mem_map_of_mem _ hsq

theorem mem_deepResearch_urls (env : Env) (q : String) (b d : Int)
    (L U : List String) (sqs : List SerpQuery) (sq : SerpQuery) (y : String)
    (r : ResearchResult)
    (hg : generateSerpQueries env q L b = .ok sqs) (hsq : sq ∈ sqs)
    (hr : deepResearch env q b d L U = .ok r)
    (hy : y ∈ (runTask env b d L U sq).visitedUrls) : y ∈ r.visitedUrls := by
  rw [deepResearch_ok env q b d L U sqs hg] at hr
  cases hr
  rw [jsNewSet_mem]
  rw [List.mem_flatMap]
  refine ⟨runTask env b d L U sq, ?_, hy⟩
  rw [runTasks_eq_map]
  exact List.mem_map_of_mem _ hsq

/-- Sample query used in witnesses: a branch whose search call fails. -/
def sqFail : SerpQuery := ⟨"fail", "gfail"⟩

/-- Sample query used in witnesses: a branch whose extraction call fails. -/
def sqPFail : SerpQuery := ⟨"pfail", "gp"⟩

/-- Sample query used in witnesses: a branch whose recursive call fails. -/
def sqRFail : SerpQuery := ⟨"rfail", "gr"⟩

/-- Sample query used in witnesses: a fully successful branch. -/
def sqOk : SerpQuery := ⟨"ok", "gok"⟩

/-- Sample query used in witnesses: the single query of the child level. -/
def sqChild : SerpQuery := ⟨"child", "gc"⟩

/-- Sample search response item used in witnesses. -/
def sampleItem : SearchItem := ⟨some "http://u", some "doc"⟩

/-- Sample finding set used in witnesses. -/
def fs0 : FindingSet := ⟨["L1"], ["F1"]⟩

/-- Witness environment: at the root it generates four branches exercising a
search failure, an extraction failure, a recursion failure and a success; each
deeper level generates the single query child.  The recursion below sqRFail
fails because the generation oracle rejects its next-level query. -/
def env0 : Env where
  enc := fun cs => cs.length
  genOracle := fun q _ _ =>
    if q = "root" then .ok [sqFail, sqPFail, sqRFail, sqOk]
    else if q = nextQuery sqRFail fs0 then .error "boom"
    else .ok [sqChild]
  search := fun q => if q = "fail" then .error "Timeout" else .ok [sampleItem]
  extract := fun q _ _ _ => if q = "pfail" then .error "Timeout" else .ok fs0

/-- Witness environment for the concurrency limiter claims: one query per
level (q1 at the root, where no learnings have accumulated yet, q2 below),
always-successful search and extraction. -/
def env4 : Env where
  enc := fun cs => cs.length
  genOracle := fun _ learnings _ =>
    if learnings.isEmpty then .ok [⟨"q1", "g1"⟩] else .ok [⟨"q2", "g2"⟩]
  search := fun _ => .ok [⟨some "u", some "m"⟩]
  extract := fun _ _ _ _ => .ok ⟨["l"], ["f"]⟩

theorem env4_eval :
    deepResearchL env4 "root" 1 2 [] [] 0 =
      (.ok ⟨["l"], ["u"]⟩, 2, [(0, "q1"), (1, "q2")]) := by
  have htask2 : runTaskL env4 1 1 ["l"] ["u"] 1 2 ⟨"q2", "g2"⟩ =
      (⟨["l", "l"], ["u", "u"]⟩, 2, [(1, "q2")]) := by
    unfold runTaskL
    rfl
  have hnil : runTasksL env4 1 1 ["l"] ["u"] 1 2 [] = ([], 2, []) := by
    unfold runTasksL
    rfl
  have htasks2 : runTasksL env4 1 1 ["l"] ["u"] 1 2 [⟨"q2", "g2"⟩] =
      ([⟨["l", "l"], ["u", "u"]⟩], 2, [(1, "q2")]) := by
    unfold runTasksL
    rw [htask2]
    dsimp only
    rw [hnil]
    rfl
  have hchild : deepResearchL env4 (nextQuery ⟨"q1", "g1"⟩ ⟨["l"], ["f"]⟩) 1 1
      ["l"] ["u"] 1 = (.ok ⟨["l"], ["u"]⟩, 2, [(1, "q2")]) := by
    have hgen : generateSerpQueries env4 (nextQuery ⟨"q1", "g1"⟩ ⟨["l"], ["f"]⟩)
        ["l"] 1 = .ok [⟨"q2", "g2"⟩] := rfl
    unfold deepResearchL
    rw [hgen]
    dsimp only
    rw [htasks2]
    rfl
  have htask1 : runTaskL env4 1 2 [] [] 0 1 ⟨"q1", "g1"⟩ =
      (⟨["l"], ["u"]⟩, 2, [(0, "q1"), (1, "q2")]) := by
    unfold runTaskL
    dsimp only
    rw [show env4.search "q1" = .ok [⟨some "u", some "m"⟩] from rfl]
    dsimp only
    rw [show processSerpResult env4 "q1" [⟨some "u", some "m"⟩] 3 (mathCeilHalf 1) =
      .ok ⟨["l"], ["f"]⟩ from rfl]
    dsimp only
    rw [dif_pos (by decide : (0 : Int) < 2 - 1)]
    rw [show mathCeilHalf 1 = 1 from rfl]
    rw [show ((2 : Int) - 1) = 1 from rfl]
    rw [show ([] ++ ["l"] : List String) = ["l"] from rfl]
    rw [show ([] : List String) ++
        List.filterMap SearchItem.url [({ url := some "u", markdown := some "m" } : SearchItem)]
      = ["u"] from rfl]
    rw [hchild]
  have hnil2 : runTasksL env4 1 2 [] [] 0 2 [] = ([], 2, []) := by
    unfold runTasksL
    rfl
  have htasks1 : runTasksL env4 1 2 [] [] 0 1 [⟨"q1", "g1"⟩] =
      ([⟨["l"], ["u"]⟩], 2, [(0, "q1"), (1, "q2")]) := by
    unfold runTasksL
    rw [htask1]
    dsimp only
    rw [hnil2]
    rfl
  have hgen0 : generateSerpQueries env4 "root" [] 1 = .ok [⟨"q1", "g1"⟩] := rfl
  unfold deepResearchL
  rw [hgen0]
  dsimp only
  rw [htasks1]
  rfl

theorem runTask_child_eval : runTask env0 2 1 ["L1"] ["http://u"] sqChild =
    ⟨["L1", "L1"], ["http://u", "http://u"]⟩ := by
  rw [runTask_terminal env0 2 1 ["L1"] ["http://u"] sqChild [sampleItem] fs0 rfl rfl
    (by decide)]
  rfl

theorem deepResearch_child_eval :
    deepResearch env0 (nextQuery sqOk fs0) 2 1 ["L1"] ["http://u"] =
      .ok ⟨["L1"], ["http://u"]⟩ := by
  rw [deepResearch_ok env0 (nextQuery sqOk fs0) 2 1 ["L1"] ["http://u"] [sqChild] rfl]
  rw [runTasks_eq_map, List.map_cons, List.map_nil, runTask_child_eval]
  rfl

theorem runTask_ok_eval : runTask env0 4 2 [] [] sqOk = ⟨["L1"], ["http://u"]⟩ := by
  rw [runTask_recurse env0 4 2 [] [] sqOk [sampleItem] fs0 rfl rfl (by decide)]
  rw [show mathCeilHalf 4 = 2 from rfl, show ((2 : Int) - 1) = 1 from rfl,
      show ([] ++ fs0.learnings : List String) = ["L1"] from rfl,
      show ([] : List String) ++ List.filterMap SearchItem.url [sampleItem] = ["http://u"]
        from rfl]
  rw [deepResearch_child_eval]

theorem runTask_rfail_eval : runTask env0 4 2 [] [] sqRFail = ⟨[], []⟩ := by
  rw [runTask_recurse env0 4 2 [] [] sqRFail [sampleItem] fs0 rfl rfl (by decide)]
  rw [show mathCeilHalf 4 = 2 from rfl, show ((2 : Int) - 1) = 1 from rfl,
      show ([] ++ fs0.learnings : List String) = ["L1"] from rfl,
      show ([] : List String) ++ List.filterMap SearchItem.url [sampleItem] = ["http://u"]
        from rfl]
  rw [deepResearch_error env0 (nextQuery sqRFail fs0) 2 1 ["L1"] ["http://u"] "boom" rfl]

theorem deepResearch_root_eval :
    deepResearch env0 "root" 4 2 [] [] = .ok ⟨["L1"], ["http://u"]⟩ := by
  rw [deepResearch_ok env0 "root" 4 2 [] [] [sqFail, sqPFail, sqRFail, sqOk] rfl]
  rw [runTasks_eq_map, List.map_cons, List.map_cons, List.map_cons, List.map_cons,
    List.map_nil]
  rw [runTask_search_error env0 4 2 [] [] sqFail "Timeout" rfl]
  rw [runTask_process_error env0 4 2 [] [] sqPFail [sampleItem] "Timeout" rfl rfl]
  rw [runTask_rfail_eval, runTask_ok_eval]
  rfl

/-- Tokenizer that counts one token per character, used in witnesses. -/
def lenEnc : List Char → Nat := fun cs => cs.length

/-- A 200 character text: ten a characters, a space, then 189 b characters.
The only split boundary is the space at index 10. -/
def cexPrompt : List Char := List.replicate 10 'a' ++ [' '] ++ List.replicate 189 'b'

/-- The first chunk the splitter produces from cexPrompt at target length 140:
the prefix up to and including the space, 11 characters. -/
def cexChunk : List Char := List.replicate 10 'a' ++ [' ']

/-- A possible tokenizer (the tokenizer is an external collaborator whose token
counts the trimmer does not control): the full cexPrompt counts 20 tokens and
the 11 character chunk still counts 1 token.  Real tokenizers can exceed the 3
characters per token estimate in the same way on dense text. -/
def cexEnc : List Char → Nat := fun cs =>
  if cs.length = 200 then 20 else if cs.length = 11 then 1 else 0

set_option maxRecDepth 40000 in
theorem cex_split_eval : splitFirstChunk 140 cexPrompt = cexChunk := by decide

set_option maxRecDepth 40000 in
theorem cex_trim_eval : trimPrompt cexEnc cexPrompt 0 = cexChunk := by
  have hstep : trimPrompt cexEnc cexPrompt 0 = trimPrompt cexEnc cexChunk 0 := by
    have h := trimPrompt_step_chunk cexEnc cexPrompt 0 (by decide) (by decide) (by decide)
      (by decide)
    rw [h, show (chunkSizeOf cexEnc cexPrompt 0).toNat = 140 from by decide, cex_split_eval]
  have hfloor : trimPrompt cexEnc cexChunk 0 = cexChunk := by
    rw [trimPrompt_minfloor cexEnc cexChunk 0 (by decide) (by decide)]
    exact List.take_of_length_le (by decide)
  rw [hstep, hfloor]

set_option maxRecDepth 40000 in
/-- Claim C5, counterexample to the claim as stated: on the 200 character
cexPrompt with token budget 0 under the tokenizer cexEnc, trimPrompt returns
the 11 character cexChunk, whose token count (1) exceeds the budget and which
is not the first 140 characters of the input: the minimum floor hard
truncation applies to the text reached at that recursion step, which can
already be shorter than 140 characters. -/
theorem trimPrompt_hard_floor_cex :
    ¬ (cexEnc (trimPrompt cexEnc cexPrompt 0) ≤ 0 ∨
       trimPrompt cexEnc cexPrompt 0 = cexPrompt.take MinChunkSize) := by
  rw [cex_trim_eval]
  decide

/-- Claim C5 (amended): for every tokenizer enc, text and token budget, the
result of trimPrompt either has token count at most the budget, or is the
minimum floor hard truncation: a prefix of the input of at most MinChunkSize
(140) characters, namely the first 140 characters of the text reached at the
recursion step where the floor fired; and the result is never empty for
non-empty input. -/
theorem trimPrompt_budget_or_floor (enc : List Char → Nat) (prompt : List Char)
    (budget : Nat) (h0 : prompt ≠ []) :
    (enc (trimPrompt enc prompt budget) ≤ budget ∨
      (trimPrompt enc prompt budget =
        prompt.take (trimPrompt enc prompt budget).length ∧
       (trimPrompt enc prompt budget).length ≤ MinChunkSize)) ∧
    trimPrompt enc prompt budget ≠ [] := by
  obtain ⟨hpre, hb, hne⟩ := trimPrompt_spec enc prompt budget
  refine ⟨?_, hne h0⟩
  rcases hb with h | h
  · exact Or.inl h
  · exact Or.inr ⟨hpre, h⟩

set_option maxRecDepth 40000 in
theorem trimPrompt_budget_or_floor_witness :
    (cexEnc (trimPrompt cexEnc cexPrompt 0) ≤ 0 ∨
      (trimPrompt cexEnc cexPrompt 0 =
        cexPrompt.take (trimPrompt cexEnc cexPrompt 0).length ∧
       (trimPrompt cexEnc cexPrompt 0).length ≤ MinChunkSize)) ∧
    trimPrompt cexEnc cexPrompt 0 ≠ [] :=
  trimPrompt_budget_or_floor cexEnc cexPrompt 0 (by decide)

/-- Claim C6: trimPrompt is idempotent, empty input maps to empty output, and
input already at or under the token budget is returned unchanged. -/
theorem trimPrompt_idempotent (enc : List Char → Nat) (prompt : List Char) (budget : Nat) :
    trimPrompt enc (trimPrompt enc prompt budget) budget = trimPrompt enc prompt budget ∧
    trimPrompt enc [] budget = [] ∧
    (enc prompt ≤ budget → trimPrompt enc prompt budget = prompt) := by
  refine ⟨trimPrompt_idem_aux enc prompt budget, trimPrompt_nil enc budget, ?_⟩
  intro h
  exact trimPrompt_of_le enc prompt budget h

theorem trimPrompt_idempotent_witness :
    trimPrompt lenEnc "hello".toList 9 = "hello".toList ∧
    trimPrompt lenEnc (trimPrompt lenEnc "hello".toList 9) 9 =
      trimPrompt lenEnc "hello".toList 9 :=
  ⟨(trimPrompt_idempotent lenEnc "hello".toList 9).2.2 (by decide),
   (trimPrompt_idempotent lenEnc "hello".toList 9).1⟩

/-- Claim C7: whenever trimPrompt takes the not-at-or-under-budget branch and
makes a recursive call (input non-empty, token count over budget, computed
chunk size at or above the 140 character floor), the input of that recursive
call, with the make-progress fallback to a hard slice when the splitter
returned a chunk of unchanged length, is strictly shorter than the current
input, so the recursion terminates. -/
theorem trimPrompt_recursive_call_decreases (enc : List Char → Nat) (prompt : List Char)
    (contextSize : Nat)
    (h0 : prompt ≠ [])
    (h1 : contextSize < enc prompt)
    (h2 : (MinChunkSize : Int) ≤ chunkSizeOf enc prompt contextSize) :
    trimPrompt enc prompt contextSize =
      trimPrompt enc
        (if (splitFirstChunk (chunkSizeOf enc prompt contextSize).toNat prompt).length =
            prompt.length
         then prompt.take (chunkSizeOf enc prompt contextSize).toNat
         else splitFirstChunk (chunkSizeOf enc prompt contextSize).toNat prompt)
        contextSize ∧
    (if (splitFirstChunk (chunkSizeOf enc prompt contextSize).toNat prompt).length =
        prompt.length
     then prompt.take (chunkSizeOf enc prompt contextSize).toNat
     else splitFirstChunk (chunkSizeOf enc prompt contextSize).toNat prompt).length <
      prompt.length := by
  have hb : ¬ enc prompt ≤ contextSize := by omega
  have hm : ¬ chunkSizeOf enc prompt contextSize < (MinChunkSize : Int) := by omega
  have hcs : chunkSizeOf enc prompt contextSize =
      (prompt.length : Int) - ((enc prompt - contextSize : Nat) : Int) * 3 := rfl
  have hm2 : (MinChunkSize : Int) = 140 := rfl
  by_cases h3 : (splitFirstChunk (chunkSizeOf enc prompt contextSize).toNat prompt).length =
      prompt.length
  · refine ⟨?_, ?_⟩
    · rw [if_pos h3]
      exact trimPrompt_step_slice enc prompt contextSize h0 hb hm h3
    · rw [if_pos h3, List.length_take]
      omega
  · refine ⟨?_, ?_⟩
    · rw [if_neg h3]
      exact trimPrompt_step_chunk enc prompt contextSize h0 hb hm h3
    · rw [if_neg h3]
      have hle := splitFirstChunk_length_le (chunkSizeOf enc prompt contextSize).toNat prompt
      omega

set_option maxRecDepth 40000 in
theorem trimPrompt_recursive_call_decreases_witness :
    trimPrompt lenEnc cexPrompt 180 =
      trimPrompt lenEnc
        (if (splitFirstChunk (chunkSizeOf lenEnc cexPrompt 180).toNat cexPrompt).length =
            cexPrompt.length
         then cexPrompt.take (chunkSizeOf lenEnc cexPrompt 180).toNat
         else splitFirstChunk (chunkSizeOf lenEnc cexPrompt 180).toNat cexPrompt)
        180 ∧
    (if (splitFirstChunk (chunkSizeOf lenEnc cexPrompt 180).toNat cexPrompt).length =
        cexPrompt.length
     then cexPrompt.take (chunkSizeOf lenEnc cexPrompt 180).toNat
     else splitFirstChunk (chunkSizeOf lenEnc cexPrompt 180).toNat cexPrompt).length <
      cexPrompt.length :=
  trimPrompt_recursive_call_decreases lenEnc cexPrompt 180 (by decide) (by decide) (by decide)

/-- Claim C1: a successful branch task of deepResearch computes the child
breadth as Math.ceil of half the breadth (at least 1 whenever breadth is at
least 1) and the child depth as depth minus 1; when the child depth is
positive it recurses with those parameters and the accumulated learnings and
urls (union realised as list concatenation, deduplicated at the merge) and
returns the child result; otherwise it returns exactly the accumulated
learnings and urls. -/
theorem deepResearch_child_params (env : Env) (breadth depth : Int)
    (learnings visitedUrls : List String) (sq : SerpQuery)
    (items : List SearchItem) (fs : FindingSet) (r : ResearchResult)
    (hb : 1 ≤ breadth)
    (hs : env.search sq.query = .ok items)
    (hp : processSerpResult env sq.query items 3 (mathCeilHalf breadth) = .ok fs)
    (hrec : deepResearch env (nextQuery sq fs) (mathCeilHalf breadth) (depth - 1)
      (learnings ++ fs.learnings) (visitedUrls ++ items.filterMap SearchItem.url) = .ok r) :
    1 ≤ mathCeilHalf breadth ∧
    (0 < depth - 1 → runTask env breadth depth learnings visitedUrls sq = r) ∧
    (depth - 1 ≤ 0 → runTask env breadth depth learnings visitedUrls sq =
      ⟨learnings ++ fs.learnings, visitedUrls ++ items.filterMap SearchItem.url⟩) ∧
    (learnings ++ fs.learnings).toFinset = learnings.toFinset ∪ fs.learnings.toFinset ∧
    (visitedUrls ++ items.filterMap SearchItem.url).toFinset =
      visitedUrls.toFinset ∪ (items.filterMap SearchItem.url).toFinset := by
  refine ⟨mathCeilHalf_pos breadth hb, ?_, ?_, List.toFinset_append, List.toFinset_append⟩
  · intro hd
    rw [runTask_recurse env breadth depth learnings visitedUrls sq items fs hs hp hd, hrec]
  · intro hd
    exact runTask_terminal env breadth depth learnings visitedUrls sq items fs hs hp
      (by omega)

theorem deepResearch_child_params_witness :
    1 ≤ mathCeilHalf 4 ∧
    (0 < (2 : Int) - 1 → runTask env0 4 2 [] [] sqOk = ⟨["L1"], ["http://u"]⟩) ∧
    ((2 : Int) - 1 ≤ 0 → runTask env0 4 2 [] [] sqOk =
      ⟨[] ++ fs0.learnings, [] ++ [sampleItem].filterMap SearchItem.url⟩) ∧
    (([] : List String) ++ fs0.learnings).toFinset =
      ([] : List String).toFinset ∪ fs0.learnings.toFinset ∧
    (([] : List String) ++ [sampleItem].filterMap SearchItem.url).toFinset =
      ([] : List String).toFinset ∪ ([sampleItem].filterMap SearchItem.url).toFinset :=
  deepResearch_child_params env0 4 2 [] [] sqOk [sampleItem] fs0 ⟨["L1"], ["http://u"]⟩
    (by decide) rfl rfl deepResearch_child_eval

/-- Claim C2: any failure in a branch task (search error, extraction error, or
an error escaping the recursive call) is caught at the task boundary and the
task resolves to the empty result, and a successful sibling branch still
contributes its learnings and visited urls to the final merge of the same
invocation. -/
theorem branch_failure_isolation (env : Env) (q : String) (b d : Int)
    (L U : List String)
    (sqF : SerpQuery) (e1 : String)
    (sqP : SerpQuery) (itemsP : List SearchItem) (e2 : String)
    (sqR : SerpQuery) (itemsR : List SearchItem) (fsR : FindingSet) (e3 : String)
    (sqs : List SerpQuery) (sqS : SerpQuery) (x y : String) (r : ResearchResult)
    (hf : env.search sqF.query = .error e1)
    (hp1 : env.search sqP.query = .ok itemsP)
    (hp2 : processSerpResult env sqP.query itemsP 3 (mathCeilHalf b) = .error e2)
    (hr1 : env.search sqR.query = .ok itemsR)
    (hr2 : processSerpResult env sqR.query itemsR 3 (mathCeilHalf b) = .ok fsR)
    (hrd : 0 < d - 1)
    (hr3 : deepResearch env (nextQuery sqR fsR) (mathCeilHalf b) (d - 1)
      (L ++ fsR.learnings) (U ++ itemsR.filterMap SearchItem.url) = .error e3)
    (hg : generateSerpQueries env q L b = .ok sqs)
    (hmem : sqS ∈ sqs)
    (hres : deepResearch env q b d L U = .ok r)
    (hx : x ∈ (runTask env b d L U sqS).learnings)
    (hy : y ∈ (runTask env b d L U sqS).visitedUrls) :
    runTask env b d L U sqF = ⟨[], []⟩ ∧
    runTask env b d L U sqP = ⟨[], []⟩ ∧
    runTask env b d L U sqR = ⟨[], []⟩ ∧
    x ∈ r.learnings ∧ y ∈ r.visitedUrls := by
  refine ⟨runTask_search_error env b d L U sqF e1 hf,
          runTask_process_error env b d L U sqP itemsP e2 hp1 hp2, ?_,
          mem_deepResearch_learnings env q b d L U sqs sqS x r hg hmem hres hx,
          mem_deepResearch_urls env q b d L U sqs sqS y r hg hmem hres hy⟩
  rw [runTask_recurse env b d L U sqR itemsR fsR hr1 hr2 hrd, hr3]

theorem branch_failure_isolation_witness :
    runTask env0 4 2 [] [] sqFail = ⟨[], []⟩ ∧
    runTask env0 4 2 [] [] sqPFail = ⟨[], []⟩ ∧
    runTask env0 4 2 [] [] sqRFail = ⟨[], []⟩ ∧
    "L1" ∈ (⟨["L1"], ["http://u"]⟩ : ResearchResult).learnings ∧
    "http://u" ∈ (⟨["L1"], ["http://u"]⟩ : ResearchResult).visitedUrls :=
  branch_failure_isolation env0 "root" 4 2 [] []
    sqFail "Timeout"
    sqPFail [sampleItem] "Timeout"
    sqRFail [sampleItem] fs0 "boom"
    [sqFail, sqPFail, sqRFail, sqOk] sqOk "L1" "http://u" ⟨["L1"], ["http://u"]⟩
    rfl rfl rfl rfl rfl (by decide)
    (deepResearch_error env0 (nextQuery sqRFail fs0) (mathCeilHalf 4) ((2 : Int) - 1)
      ([] ++ fs0.learnings) ([] ++ [sampleItem].filterMap SearchItem.url) "boom" rfl)
    rfl (by decide) deepResearch_root_eval
    (by rw [runTask_ok_eval]; decide) (by rw [runTask_ok_eval]; decide)

/-- Claim C3: the result of a deepResearch invocation contains no duplicate
learnings and no duplicate visited urls, and as a set it is exactly the union
of the per-task results of that invocation. -/
theorem deepResearch_merge_dedup (env : Env) (q : String) (b d : Int)
    (L U : List String) (sqs : List SerpQuery) (r : ResearchResult)
    (hg : generateSerpQueries env q L b = .ok sqs)
    (hr : deepResearch env q b d L U = .ok r) :
    r.learnings.Nodup ∧ r.visitedUrls.Nodup ∧
    r.learnings.toFinset =
      ((runTasks env b d L U sqs).flatMap ResearchResult.learnings).toFinset ∧
    r.visitedUrls.toFinset =
      ((runTasks env b d L U sqs).flatMap ResearchResult.visitedUrls).toFinset := by
  rw [deepResearch_ok env q b d L U sqs hg] at hr
  cases hr
  refine ⟨jsNewSet_nodup _, jsNewSet_nodup _, ?_, ?_⟩
  · ext a
    simp [List.mem_toFinset, jsNewSet_mem]
  · ext a
    simp [List.mem_toFinset, jsNewSet_mem]

theorem deepResearch_merge_dedup_witness :
    (["L1"] : List String).Nodup ∧ (["http://u"] : List String).Nodup ∧
    (["L1"] : List String).toFinset =
      ((runTasks env0 4 2 [] [] [sqFail, sqPFail, sqRFail, sqOk]).flatMap
        ResearchResult.learnings).toFinset ∧
    (["http://u"] : List String).toFinset =
      ((runTasks env0 4 2 [] [] [sqFail, sqPFail, sqRFail, sqOk]).flatMap
        ResearchResult.visitedUrls).toFinset :=
  deepResearch_merge_dedup env0 "root" 4 2 [] [] [sqFail, sqPFail, sqRFail, sqOk]
    ⟨["L1"], ["http://u"]⟩ rfl deepResearch_root_eval

/-- Claim C4, counterexample to the claim as stated: with one query per level
and depth 2, the two branch tasks of the recursion tree acquire slots of two
different limiters (ids 0 and 1), because deepResearch evaluates
pLimit(ConcurrencyLimit) anew in every invocation; there is no single
process-wide semaphore gating the whole tree. -/
theorem limiter_not_processwide_cex :
    (deepResearchL env4 "root" 1 2 [] [] 0).2.2 = [(0, "q1"), (1, "q2")] ∧
    ¬ usesSameLimiter (deepResearchL env4 "root" 1 2 [] [] 0).2.2 := by
  rw [env4_eval]
  refine ⟨rfl, ?_⟩
  intro h
  have h01 := h (0, "q1") (by simp) (1, "q2") (by simp)
  simp at h01

/-- Claim C4 (amended): each deepResearch invocation creates its own fresh
limiter of size ConcurrencyLimit (the next fresh id strictly advances); every
branch task anywhere in the tree below uses a limiter created at or after this
invocation, and the tasks gated by the own limiter of this invocation are exactly
its direct branch tasks, one per generated query — tasks of recursive child
invocations use other, younger limiters, so the bound is per invocation, not
process-wide. -/
theorem limiter_per_invocation (env : Env) (q : String) (b d : Int)
    (L U : List String) (n : Nat) (sqs : List SerpQuery)
    (res : Except String ResearchResult) (n2 : Nat) (uses : List (Nat × String))
    (hg : generateSerpQueries env q L b = .ok sqs)
    (hout : deepResearchL env q b d L U n = (res, n2, uses)) :
    n < n2 ∧ usesWithin uses n n2 ∧
    uses.filter (fun u => u.1 == n) = sqs.map (fun sq => (n, sq.query)) := by
  have hrec : 0 < d - 1 → deepUsesSpec env (mathCeilHalf b) (d - 1) := fun _ =>
    deepResearchL_uses (d - 1).toNat env (mathCeilHalf b) (d - 1) (Nat.le_refl _)
  unfold deepResearchL at hout
  rw [hg] at hout
  dsimp only at hout
  cases hout
  obtain ⟨h1, h2, h3⟩ := runTasksL_uses env b d L U n hrec sqs (n + 1) _ _ _
    (rfl : runTasksL env b d L U n (n + 1) sqs =
      ((runTasksL env b d L U n (n + 1) sqs).1,
       (runTasksL env b d L U n (n + 1) sqs).2.1,
       (runTasksL env b d L U n (n + 1) sqs).2.2))
  refine ⟨by omega, ?_, h3 (by omega)⟩
  intro u hu
  rcases h2 u hu with h | h
  · exact ⟨Nat.le_of_eq h.symm, by omega⟩
  · exact ⟨by omega, h.2⟩

theorem limiter_per_invocation_witness :
    0 < 2 ∧ usesWithin [(0, "q1"), (1, "q2")] 0 2 ∧
    ([(0, "q1"), (1, "q2")].filter (fun u => u.1 == 0)) =
      [(⟨"q1", "g1"⟩ : SerpQuery)].map (fun sq => (0, sq.query)) :=
  limiter_per_invocation env4 "root" 1 2 [] [] 0 [⟨"q1", "g1"⟩]
    (.ok ⟨["l"], ["u"]⟩) 2 [(0, "q1"), (1, "q2")] rfl env4_eval

/-- Claim C8: an operation failing with an error that is not classified as a
rate limit condition has that error propagated by withExponentialBackoff on
the first attempt, with no delays performed (the conclusion records the thrown
error and an empty delay list). -/
theorem backoff_nonratelimit_immediate {α : Type} (fn : Nat → Except String α)
    (options : RetryOptions) (msg : String)
    (h1 : fn 0 = .error msg)
    (h2 : isRateLimit msg = false)
    (h3 : 1 ≤ options.maxRetries.getD 5) :
    withExponentialBackoff fn options = (.thrown msg, []) := by
  unfold withExponentialBackoff
  have hft : (options.maxRetries.getD 5).toNat =
      ((options.maxRetries.getD 5).toNat - 1) + 1 := by omega
  rw [hft]
  unfold backoffGo
  rw [h1]
  dsimp only
  rw [if_pos h2]

/-- Operation used in witnesses that always fails with a non rate limit
error. -/
def fnErr : Nat → Except String Nat := fun _ => .error "boom"

theorem backoff_nonratelimit_immediate_witness :
    withExponentialBackoff fnErr ⟨none, none⟩ = (.thrown "boom", []) :=
  backoff_nonratelimit_immediate fnErr ⟨none, none⟩ "boom" rfl (by decide) (by decide)

/-- Operation used in the delay counterexample: a rate limit failure whose
message encodes an explicit wait interval of 0 seconds, then success. -/
def fnCex9 : Nat → Except String Nat := fun i =>
  if i = 0 then .error "rate limit: try again in 0s" else .ok 7

/-- Claim C9, counterexample to the claim as stated: with maxRetries 2 and
initialRetryDelay 1000, an operation failing once with a rate limit message
that encodes a suggested wait of 0 seconds succeeds after one retry, but the
single delay performed is 1000 (exponential backoff), not the encoded
interval 0: a parsed wait of 0 is falsy in JavaScript and the code falls back
to exponential backoff, contradicting that each delay equals the parsed
interval whenever one is encoded. -/
theorem backoff_zero_hint_cex :
    withExponentialBackoff fnCex9 ⟨some 2, some 1000⟩ = (.ok 7, [1000]) ∧
    claimedDelay 1000 "rate limit: try again in 0s" 0 = 0 ∧
    (1000 : Nat) ≠ 0 := by
  refine ⟨by decide, by decide, by decide⟩

/-- Claim C9 (amended): for an operation failing with rate limit errors on the
first maxRetries - 1 attempts and succeeding on the last,
withExponentialBackoff returns the success value after performing exactly
maxRetries - 1 delays, where each delay is the wait interval parsed from that
error message of that attempt when one is encoded and nonzero, and the exponential
backoff initialRetryDelay times 2 to the attempt index otherwise; and for an
operation failing with rate limit errors on all maxRetries attempts it throws
a terminal error naming the attempt count and the last failure, after the same
maxRetries - 1 delays. -/
theorem backoff_ratelimit_retries {α : Type} (fn gn : Nat → Except String α)
    (msgs msgs2 : Nat → String) (v : α) (M : Nat) (inito : Option Nat)
    (hM : 1 ≤ M)
    (hfail : ∀ i, i < M - 1 → fn i = .error (msgs i) ∧ isRateLimit (msgs i) = true)
    (hok : fn (M - 1) = .ok v)
    (hfail2 : ∀ i, i < M → gn i = .error (msgs2 i) ∧ isRateLimit (msgs2 i) = true) :
    withExponentialBackoff fn ⟨some (M : Int), inito⟩ =
      (.ok v, (List.range (M - 1)).map
        (fun i => effectiveDelay (inito.getD 1000) (msgs i) i)) ∧
    withExponentialBackoff gn ⟨some (M : Int), inito⟩ =
      (.thrown ("Failed after " ++ toString (M : Int) ++ " attempts with error: "
          ++ msgs2 (M - 1)),
       (List.range (M - 1)).map (fun i => effectiveDelay (inito.getD 1000) (msgs2 i) i)) := by
  constructor
  · unfold withExponentialBackoff
    rw [show (RetryOptions.mk (some (M : Int)) inito).maxRetries.getD 5 = (M : Int) from rfl]
    rw [show (RetryOptions.mk (some (M : Int)) inito).initialRetryDelay = inito from rfl]
    rw [Int.toNat_natCast]
    have h := backoffGo_ok fn (M : Int) (inito.getD 1000) msgs v M 0 none
      (by simp) hM
      (fun i hi1 hi2 => hfail i (by omega))
      (by rw [Nat.zero_add]; exact hok)
    rw [h, List.range_eq_range']
  · unfold withExponentialBackoff
    rw [show (RetryOptions.mk (some (M : Int)) inito).maxRetries.getD 5 = (M : Int) from rfl]
    rw [show (RetryOptions.mk (some (M : Int)) inito).initialRetryDelay = inito from rfl]
    rw [Int.toNat_natCast]
    have h := backoffGo_exhaust gn (M : Int) (inito.getD 1000) msgs2 M 0 none
      (by simp) hM
      (fun i hi1 hi2 => hfail2 i (by omega))
    rw [h, List.range_eq_range', Nat.zero_add]

/-- Operation used in witnesses: one rate limit failure, then success. -/
def fnW9 : Nat → Except String Nat := fun i =>
  if i = 0 then .error "rate limit a" else .ok 42

/-- Operation used in witnesses: rate limit failure on every attempt. -/
def gnW9 : Nat → Except String Nat := fun _ => .error "rate limit b"

theorem backoff_ratelimit_retries_witness :
    withExponentialBackoff fnW9 ⟨some (2 : Int), some 1000⟩ =
      (.ok 42, (List.range 1).map (fun i => effectiveDelay 1000 "rate limit a" i)) ∧
    withExponentialBackoff gnW9 ⟨some (2 : Int), some 1000⟩ =
      (.thrown ("Failed after " ++ toString (2 : Int) ++ " attempts with error: "
          ++ "rate limit b"),
       (List.range 1).map (fun i => effectiveDelay 1000 "rate limit b" i)) :=
  backoff_ratelimit_retries fnW9 gnW9 (fun _ => "rate limit a") (fun _ => "rate limit b")
    42 2 (some 1000) (by omega)
    (fun i hi => by
      have h0 : i = 0 := by omega
      subst h0
      exact ⟨rfl, by show isRateLimit "rate limit a" = true; decide⟩)
    rfl
    (fun i _ => ⟨rfl, by show isRateLimit "rate limit b" = true; decide⟩)

/-- Claim C10: when maxRetries is supplied as zero or any non-positive value,
the retry loop body never executes, the wrapped operation is never invoked
(the result is the same for every operation fn), and withExponentialBackoff
throws the initial null lastError value rather than an Error object. -/
theorem backoff_nonpositive_maxretries_nullthrow {α : Type} (fn : Nat → Except String α)
    (options : RetryOptions) (k : Int)
    (h1 : options.maxRetries = some k) (h2 : k ≤ 0) :
    withExponentialBackoff fn options = (.thrownNull, []) := by
  unfold withExponentialBackoff
  rw [h1]
  rw [show (some k).getD 5 = k from rfl]
  rw [show k.toNat = 0 from by omega]
  unfold backoffGo
  rfl

theorem backoff_nonpositive_maxretries_nullthrow_witness :
    withExponentialBackoff (fun _ => (.ok 1 : Except String Nat)) ⟨some 0, none⟩ =
      (.thrownNull, []) :=
  backoff_nonpositive_maxretries_nullthrow (fun _ => .ok 1) ⟨some 0, none⟩ 0 rfl (by decide)
